import Mathlib

/-!
Verification of the DS2432 (w1 family B3) 1-Wire EEPROM driver.

The development shallowly embeds the driver's core (`w1_ds2432.c`):
machine integers become `Nat` with explicit reductions modulo `2 ^ 32`
(u32) and `256` (u8) where the C code truncates; byte buffers become
`List Nat`; bus I/O becomes explicit oracles (the bytes the device
would send) plus a ghost trace of the transport operations the driver
performs.  Fallible C functions returning `0` or a negative errno
become `Except DsErr`.

The optional CRC16 validation blocks (guarded by
`CONFIG_W1_SLAVE_DS2432_CRC` in the source) are conditionally compiled;
this embedding models the build without that option, in which the two
CRC bytes are still read from the bus but not checked.
-/

/-- Errors used by the driver: `-EIO`, `-EACCES`, `-EPERM`. -/
inductive DsErr where
  | eio
  | eacces
  | eperm
deriving DecidableEq

/-- Equality of `Except` results is decidable when both component
types have decidable equality. -/
instance {ε α : Type} [DecidableEq ε] [DecidableEq α] :
    DecidableEq (Except ε α) := fun x y =>
  match x, y with
  | .ok a, .ok b =>
    if h : a = b then .isTrue (by rw [h])
    else .isFalse (by intro hh; cases hh; exact h rfl)
  | .error a, .error b =>
    if h : a = b then .isTrue (by rw [h])
    else .isFalse (by intro hh; cases hh; exact h rfl)
  | .ok _, .error _ => .isFalse (by intro hh; cases hh)
  | .error _, .ok _ => .isFalse (by intro hh; cases hh)

/-- One transport-level operation, recorded as a ghost trace entry:
reset-and-select, block write, block read of `n` bytes, single byte
read (`w1_read_8`), sleep, and bus reset (`w1_reset_bus`). -/
inductive BusOp where
  | resetSelect
  | write : List Nat → BusOp
  | read : Nat → BusOp
  | read8
  | sleep : Nat → BusOp
  | resetBus
deriving DecidableEq

/-- The `struct sha1` of the source: five 32-bit working variables. -/
structure sha1 where
  a : Nat
  b : Nat
  c : Nat
  d : Nat
  e : Nat
deriving DecidableEq

/-- Kernel `rol32`: rotate a 32-bit value left by `k` bits (the shift
left is truncated to 32 bits as in u32 arithmetic). -/
def rol32 (v k : Nat) : Nat :=
  ((v <<< k) % 2 ^ 32) ||| (v >>> (32 - k))

/-- Round function `f1` of the source: `z ^ (x & (y ^ z))`. -/
def f1 (x y z : Nat) : Nat := z ^^^ (x &&& (y ^^^ z))

/-- Round function `f2` of the source: `x ^ y ^ z`. -/
def f2 (x y z : Nat) : Nat := x ^^^ y ^^^ z

/-- Round function `f3` of the source: `(x & y) + (z & (x ^ y))`. -/
def f3 (x y z : Nat) : Nat := (x &&& y) + (z &&& (x ^^^ y))

/-- Round constant for rounds 0-19. -/
def K1 : Nat := 0x5A827999

/-- Round constant for rounds 20-39. -/
def K2 : Nat := 0x6ED9EBA1

/-- Round constant for rounds 40-59. -/
def K3 : Nat := 0x8F1BBCDC

/-- Round constant for rounds 60-79. -/
def K4 : Nat := 0xCA62C1D6

/-- `be32_to_cpu(((const __be32 *)in)[i])`: the `i`-th big-endian
32-bit word of the 64-byte input block. -/
def be32_word (msg : List Nat) (i : Nat) : Nat :=
  (msg.getD (4 * i) 0 <<< 24) ||| (msg.getD (4 * i + 1) 0 <<< 16) |||
    (msg.getD (4 * i + 2) 0 <<< 8) ||| msg.getD (4 * i + 3) 0

/-- The first 16 schedule words `workspace[0..15]`. -/
def sha_workspace_init (msg : List Nat) : List Nat :=
  (List.range 16).map (be32_word msg)

/-- The expansion loop of the source: iteration `i` appends
`workspace[i+16] = rol32(w[i+13] ^ w[i+8] ^ w[i+2] ^ w[i], 1)`. -/
def sha_workspace_expand (ws : List Nat) : Nat → List Nat
  | 0 => ws
  | n + 1 =>
    let ws' := sha_workspace_expand ws n
    ws' ++ [rol32 ((ws'.getD (n + 13) 0) ^^^ (ws'.getD (n + 8) 0) ^^^
      (ws'.getD (n + 2) 0) ^^^ (ws'.getD n 0)) 1]

/-- The full 80-word message schedule `workspace[0..79]`. -/
def sha_workspace (msg : List Nat) : List Nat :=
  sha_workspace_expand (sha_workspace_init msg) 64

/-- One round of the source's compression loop:
`t = f(b,c,d) + K + rol32(a,5) + e + w` in u32 arithmetic, then
`(a,b,c,d,e) := (t, a, rol32(b,30), c, d)`. -/
def sha_round (f : Nat → Nat → Nat → Nat) (k w : Nat) (s : sha1) : sha1 :=
  ⟨(f s.b s.c s.d + k + rol32 s.a 5 + s.e + w) % 2 ^ 32,
    s.a, rol32 s.b 30, s.c, s.d⟩

/-- Which round function the source's four loops apply at round `i`. -/
def sha_round_f (i : Nat) : Nat → Nat → Nat → Nat :=
  if i < 20 then f1 else if i < 40 then f2 else if i < 60 then f3 else f2

/-- Which round constant the source's four loops apply at round `i`. -/
def sha_round_k (i : Nat) : Nat :=
  if i < 20 then K1 else if i < 40 then K2 else if i < 60 then K3 else K4

/-- The fixed SHA-1 initial state the source assigns before round 0. -/
def sha_init : sha1 :=
  ⟨0x67452301, 0xefcdab89, 0x98badcfe, 0x10325476, 0xc3d2e1f0⟩

/-- `maxim_sha_transform`: the source's 80-round transform over one
64-byte block.  The working variables after round 80 are stored into
the output directly; the final addition of the initial state that
standard SHA-1 performs is absent from the source. -/
def maxim_sha_transform (msg : List Nat) : sha1 :=
  (List.range 80).foldl
    (fun s i => sha_round (sha_round_f i) (sha_round_k i)
      ((sha_workspace msg).getD i 0) s)
    sha_init

/-- Modelled from the spec: the standard SHA-1 choice function
`Ch(x,y,z) = (x AND y) OR ((NOT x) AND z)`, with NOT taken on 32 bits. -/
def spec_ch (x y z : Nat) : Nat :=
  (x &&& y) ||| ((x ^^^ (2 ^ 32 - 1)) &&& z)

/-- Modelled from the spec: the standard SHA-1 parity function. -/
def spec_parity (x y z : Nat) : Nat := x ^^^ y ^^^ z

/-- Modelled from the spec: the standard SHA-1 majority function
`Maj(x,y,z) = (x AND y) OR (x AND z) OR (y AND z)`. -/
def spec_maj (x y z : Nat) : Nat :=
  (x &&& y) ||| (x &&& z) ||| (y &&& z)

/-- Modelled from the spec: the standard round function selection of
SHA-1 (Ch for rounds 0-19, Parity for 20-39, Maj for 40-59, Parity for
60-79). -/
def spec_round_f (i : Nat) : Nat → Nat → Nat → Nat :=
  if i < 20 then spec_ch else if i < 40 then spec_parity
  else if i < 60 then spec_maj else spec_parity

/-- Modelled from the spec: the standard SHA-1 round constants. -/
def spec_round_k (i : Nat) : Nat :=
  if i < 20 then 0x5A827999 else if i < 40 then 0x6ED9EBA1
  else if i < 60 then 0x8F1BBCDC else 0xCA62C1D6

/-- Modelled from the spec: big-endian 32-bit word interpretation of
the input block. -/
def spec_be_word (msg : List Nat) (i : Nat) : Nat :=
  (msg.getD (4 * i) 0 <<< 24) ||| (msg.getD (4 * i + 1) 0 <<< 16) |||
    (msg.getD (4 * i + 2) 0 <<< 8) ||| msg.getD (4 * i + 3) 0

/-- Modelled from the spec: the standard 80-round message-schedule
expansion, rotate-left-1 of the XOR of the words at offsets 13, 8, 2
and 0. -/
def spec_schedule_expand (ws : List Nat) : Nat → List Nat
  | 0 => ws
  | n + 1 =>
    let ws' := spec_schedule_expand ws n
    ws' ++ [rol32 ((ws'.getD (n + 13) 0) ^^^ (ws'.getD (n + 8) 0) ^^^
      (ws'.getD (n + 2) 0) ^^^ (ws'.getD n 0)) 1]

/-- Modelled from the spec: the full standard SHA-1 message schedule. -/
def spec_schedule (msg : List Nat) : List Nat :=
  spec_schedule_expand ((List.range 16).map (spec_be_word msg)) 64

/-- Modelled from the spec: one standard SHA-1 compression round,
`T = ROTL5(a) + f(b,c,d) + e + K + W`, then
`(a,b,c,d,e) := (T, a, ROTL30(b), c, d)`, in 32-bit arithmetic. -/
def spec_sha1_round (i w : Nat) (s : sha1) : sha1 :=
  ⟨(rol32 s.a 5 + spec_round_f i s.b s.c s.d + s.e + spec_round_k i + w) % 2 ^ 32,
    s.a, rol32 s.b 30, s.c, s.d⟩

/-- Modelled from the spec: one single-block pass of the SHA-1
compression function seeded with the fixed SHA-1 initial state, with
the final addition of the working variables back into the initial hash
state omitted; the five working variables after round 80 are the
output directly. -/
def sha1_single_block_no_final_add (msg : List Nat) : sha1 :=
  (List.range 80).foldl
    (fun s i => spec_sha1_round i ((spec_schedule msg).getD i 0) s)
    ⟨0x67452301, 0xEFCDAB89, 0x98BADCFE, 0x10325476, 0xC3D2E1F0⟩

lemma lor_mod_two (x y : Nat) : (x ||| y) % 2 = x % 2 ||| y % 2 := by
  have h := Nat.testBit_lor x y 0
  simp only [Nat.testBit_zero] at h
  rcases Nat.mod_two_eq_zero_or_one x with hx | hx <;>
  rcases Nat.mod_two_eq_zero_or_one y with hy | hy <;>
  rcases Nat.mod_two_eq_zero_or_one (x ||| y) with hxy | hxy <;>
  simp [hx, hy, hxy] at h ⊢

lemma land_mod_two (x y : Nat) : (x &&& y) % 2 = x % 2 &&& y % 2 := by
  have h := Nat.testBit_land x y 0
  simp only [Nat.testBit_zero] at h
  rcases Nat.mod_two_eq_zero_or_one x with hx | hx <;>
  rcases Nat.mod_two_eq_zero_or_one y with hy | hy <;>
  rcases Nat.mod_two_eq_zero_or_one (x &&& y) with hxy | hxy <;>
  simp [hx, hy, hxy] at h ⊢

lemma add_eq_lor_of_land_eq_zero (x y : Nat) (h : x &&& y = 0) : x + y = x ||| y := by
  induction x using Nat.strong_induction_on generalizing y with
  | _ x ih =>
    rcases Nat.eq_zero_or_pos x with hx0 | hx0
    · simp [hx0]
    · have hdiv : x / 2 &&& y / 2 = 0 := by
        rw [← Nat.and_div_two, h]
      have hmod : x % 2 &&& y % 2 = 0 := by
        rw [← land_mod_two, h]
      have ihd : x / 2 + y / 2 = x / 2 ||| y / 2 :=
        ih (x / 2) (Nat.div_lt_self hx0 (by norm_num)) _ hdiv
      have hx := Nat.div_add_mod x 2
      have hy := Nat.div_add_mod y 2
      have hor : x ||| y = 2 * ((x ||| y) / 2) + (x ||| y) % 2 := (Nat.div_add_mod _ 2).symm ▸ rfl
      have hor2 : (x ||| y) / 2 = x / 2 ||| y / 2 := Nat.or_div_two
      have hor3 : (x ||| y) % 2 = x % 2 ||| y % 2 := lor_mod_two x y
      have hmod2 : x % 2 + y % 2 = x % 2 ||| y % 2 := by
        rcases Nat.mod_two_eq_zero_or_one x with h1 | h1 <;>
        rcases Nat.mod_two_eq_zero_or_one y with h2 | h2 <;>
        simp [h1, h2] at hmod ⊢
      omega

lemma f1_eq_spec_ch (x y z : Nat) (hx : x < 2 ^ 32) (hy : y < 2 ^ 32) (hz : z < 2 ^ 32) :
    f1 x y z = spec_ch x y z := by
  unfold f1 spec_ch
  apply Nat.eq_of_testBit_eq
  intro i
  simp only [Nat.testBit_xor, Nat.testBit_land, Nat.testBit_lor,
    Nat.testBit_two_pow_sub_one]
  by_cases h : i < 32
  · rw [decide_eq_true h]
    cases x.testBit i <;> cases y.testBit i <;> cases z.testBit i <;> rfl
  · have hpow : (2 : Nat) ^ 32 ≤ 2 ^ i := Nat.pow_le_pow_right (by norm_num) (Nat.le_of_not_lt h)
    have ex : x.testBit i = false := Nat.testBit_eq_false_of_lt (lt_of_lt_of_le hx hpow)
    have ey : y.testBit i = false := Nat.testBit_eq_false_of_lt (lt_of_lt_of_le hy hpow)
    have ez : z.testBit i = false := Nat.testBit_eq_false_of_lt (lt_of_lt_of_le hz hpow)
    simp [ex, ey, ez, h]

lemma f3_eq_spec_maj (x y z : Nat) : f3 x y z = spec_maj x y z := by
  unfold f3 spec_maj
  have hdisj : (x &&& y) &&& (z &&& (x ^^^ y)) = 0 := by
    apply Nat.eq_of_testBit_eq
    intro i
    simp only [Nat.testBit_land, Nat.testBit_xor, Nat.zero_testBit]
    cases x.testBit i <;> cases y.testBit i <;> cases z.testBit i <;> rfl
  rw [add_eq_lor_of_land_eq_zero _ _ hdisj]
  apply Nat.eq_of_testBit_eq
  intro i
  simp only [Nat.testBit_land, Nat.testBit_xor, Nat.testBit_lor]
  cases x.testBit i <;> cases y.testBit i <;> cases z.testBit i <;> rfl

def sha1_bounded (s : sha1) : Prop :=
  s.a < 2 ^ 32 ∧ s.b < 2 ^ 32 ∧ s.c < 2 ^ 32 ∧ s.d < 2 ^ 32 ∧ s.e < 2 ^ 32

lemma rol32_lt (v k : Nat) (hv : v < 2 ^ 32) : rol32 v k < 2 ^ 32 := by
  unfold rol32
  have h1 : (v <<< k) % 2 ^ 32 < 2 ^ 32 := Nat.mod_lt _ (by norm_num)
  have h2 : v >>> (32 - k) < 2 ^ 32 := by
    rw [Nat.shiftRight_eq_div_pow]
    exact lt_of_le_of_lt (Nat.div_le_self _ _) hv
  exact Nat.or_lt_two_pow h1 h2

lemma spec_sha1_round_bounded (i w : Nat) (s : sha1) (hs : sha1_bounded s) :
    sha1_bounded (spec_sha1_round i w s) := by
  obtain ⟨ha, hb, hc, hd, he⟩ := hs
  exact ⟨Nat.mod_lt _ (by norm_num), ha, rol32_lt _ _ hb, hc, hd⟩

lemma sha_round_eq_spec (i w : Nat) (s : sha1) (hs : sha1_bounded s) :
    sha_round (sha_round_f i) (sha_round_k i) w s = spec_sha1_round i w s := by
  obtain ⟨ha, hb, hc, hd, he⟩ := hs
  have hf : sha_round_f i s.b s.c s.d = spec_round_f i s.b s.c s.d := by
    unfold sha_round_f spec_round_f
    split_ifs
    · exact f1_eq_spec_ch _ _ _ hb hc hd
    · rfl
    · exact f3_eq_spec_maj _ _ _
    · rfl
  have hk : sha_round_k i = spec_round_k i := rfl
  have hsum : sha_round_f i s.b s.c s.d + sha_round_k i + rol32 s.a 5 + s.e + w
      = rol32 s.a 5 + spec_round_f i s.b s.c s.d + s.e + spec_round_k i + w := by
    rw [hf, hk]; ring
  unfold sha_round spec_sha1_round
  rw [hsum]

lemma sha_fold_eq_spec (l ws : List Nat) (s : sha1) (hs : sha1_bounded s) :
    l.foldl (fun s i => sha_round (sha_round_f i) (sha_round_k i) (ws.getD i 0) s) s
      = l.foldl (fun s i => spec_sha1_round i (ws.getD i 0) s) s := by
  induction l generalizing s with
  | nil => rfl
  | cons i t ih =>
    simp only [List.foldl_cons]
    rw [sha_round_eq_spec i _ s hs]
    exact ih _ (spec_sha1_round_bounded i _ s hs)

lemma spec_schedule_eq_workspace (msg : List Nat) :
    spec_schedule msg = sha_workspace msg := by
  unfold spec_schedule sha_workspace sha_workspace_init
  have hbe : spec_be_word msg = be32_word msg := rfl
  rw [hbe]
  have : ∀ n ws, spec_schedule_expand ws n = sha_workspace_expand ws n := by
    intro n
    induction n with
    | zero => intro ws; rfl
    | succ n ih =>
      intro ws
      simp only [spec_schedule_expand, sha_workspace_expand, ih]
  exact this 64 _

/-- C1: `maxim_sha_transform` is exactly one single-block SHA-1
compression pass over the 64-byte input with the final state addition
omitted: big-endian words, the standard 80-round schedule, the
standard initial state, round functions and constants, and the five
working variables after round 80 returned directly. -/
theorem maxim_sha_transform_is_single_block_sha1_without_final_add (msg : List Nat) :
    maxim_sha_transform msg = sha1_single_block_no_final_add msg := by
  unfold maxim_sha_transform sha1_single_block_no_final_add
  rw [spec_schedule_eq_workspace]
  exact sha_fold_eq_spec _ _ _ (by unfold sha_init sha1_bounded; norm_num)

/-- The 64-byte Authentication Message assembled by `generate_mac`:
bytes 0-3 `secret[0..3]`, bytes 4-31 `data_memory_page[0..27]`, bytes
32-39 `scratchpad[0..7]`, byte 40 `(memory_page & 0xf0) >> 5`, bytes
41-47 `serial_number[0..6]`, bytes 48-51 `secret[4..7]`, bytes 52-63
the fixed constants from the datasheet.  The element-wise copy loops
of the source are rendered with `take`/`drop`; on inputs of the C
array lengths (8, 8, 32 or more, 8) the bytes read are identical. -/
def generate_mac_message (secret scratchpad : List Nat) (memory_page : Nat)
    (data_memory_page serial_number : List Nat) : List Nat :=
  secret.take 4 ++ data_memory_page.take 28 ++ scratchpad.take 8 ++
    [(memory_page &&& 0xf0) >>> 5] ++ serial_number.take 7 ++
    (secret.drop 4).take 4 ++
    [0xff, 0xff, 0xff, 0x80, 0x00, 0x00, 0x00, 0x00, 0x00, 0x00, 0x01, 0xb8]

/-- `generate_mac`: assemble the Authentication Message and run
`maxim_sha_transform` over it. -/
def generate_mac (secret scratchpad : List Nat) (memory_page : Nat)
    (data_memory_page serial_number : List Nat) : sha1 :=
  maxim_sha_transform
    (generate_mac_message secret scratchpad memory_page data_memory_page serial_number)

/-- The source's per-word serialization loop: emit `n` bytes of
`value`, least significant first (`value & 0xff` then `value >>= 8`). -/
def le32loop : Nat → Nat → List Nat
  | _, 0 => []
  | value, n + 1 => (value &&& 0xff) :: le32loop (value >>> 8) n

/-- The 20-byte `copy_scratchpad_mac` buffer of
`w1_ds2432_copy_scratchpad`: words in the order e, d, c, b, a, each
serialized least-significant-byte first. -/
def copy_scratchpad_mac (mac : sha1) : List Nat :=
  le32loop mac.e 4 ++ le32loop mac.d 4 ++ le32loop mac.c 4 ++
    le32loop mac.b 4 ++ le32loop mac.a 4

/-- `w1_ds2432_read_memory`: reset-select (may fail), send READ_MEMORY
with the little-endian-split target address, read `count` bytes.
`devBytes` is the oracle for the bytes the device sends; the source
stores them unconditionally and returns 0. -/
def w1_ds2432_read_memory (resetOk : Bool) (address count : Nat)
    (devBytes : List Nat) : List BusOp × Except DsErr (List Nat) :=
  if resetOk then
    ([.resetSelect, .write [0xF0, address &&& 0xff, (address >>> 8) % 256],
      .read count], .ok devBytes)
  else ([.resetSelect], .error .eio)

/-- `w1_ds2432_write_scratchpad` (build without
`CONFIG_W1_SLAVE_DS2432_CRC`): reset-select (may fail), send
WRITE_SCRATCHPAD, the little-endian-split address and the 8 data
bytes, then read the 2 CRC bytes. -/
def w1_ds2432_write_scratchpad (resetOk : Bool) (address : Nat)
    (data : List Nat) : List BusOp × Except DsErr Unit :=
  if resetOk then
    ([.resetSelect,
      .write ([0x0F, address &&& 0xff, (address >>> 8) % 256] ++ data.take 8),
      .read 2], .ok ())
  else ([.resetSelect], .error .eio)

/-- `w1_ds2432_read_scratchpad` (build without
`CONFIG_W1_SLAVE_DS2432_CRC`): reset-select (may fail), send
READ_SCRATCHPAD, read TA1, TA2, ES, the 8 data bytes and the 2 CRC
bytes; return `((u16)(TA2 << 8) | TA1, ES, data)`.  `ta1`, `ta2`,
`es`, `devData` are the oracle for what the device sends. -/
def w1_ds2432_read_scratchpad (resetOk : Bool) (ta1 ta2 es : Nat)
    (devData : List Nat) : List BusOp × Except DsErr (Nat × Nat × List Nat) :=
  if resetOk then
    ([.resetSelect, .write [0xAA], .read 3, .read 8, .read 2],
      .ok (((ta2 <<< 8) % 2 ^ 16) ||| ta1, es, devData.take 8))
  else ([.resetSelect], .error .eio)

/-- `w1_ds2432_load_first_secret`: reset-select (may fail), send
LOAD_FIRST_SECRET + address + ES, sleep 10 ms, read one status byte;
any status other than 0xAA or 0x55 is `-EIO`. -/
def w1_ds2432_load_first_secret (resetOk : Bool) (address es : Nat)
    (status : Nat) : List BusOp × Except DsErr Unit :=
  if resetOk then
    ([.resetSelect, .write [0x5A, address &&& 0xff, (address >>> 8) % 256, es],
      .sleep 10, .read8],
      if status ≠ 0xAA ∧ status ≠ 0x55 then .error .eio else .ok ())
  else ([.resetSelect], .error .eio)

/-- `w1_ds2432_copy_scratchpad`: reset-select (may fail), send
COPY_SCRATCHPAD + address + ES, sleep 2 ms, send the 20-byte MAC,
sleep 10 ms, read one status byte and classify it: 0x00 is `-EACCES`
(invalid MAC), 0xff is `-EPERM` (write protected), 0xAA and 0x55 are
success, anything else is `-EIO`. -/
def w1_ds2432_copy_scratchpad (resetOk : Bool) (address es : Nat)
    (mac : sha1) (success : Nat) : List BusOp × Except DsErr Unit :=
  if resetOk then
    ([.resetSelect,
      .write [0x55, address &&& 0xff, (address >>> 8) &&& 0xff, es],
      .sleep 2, .write (copy_scratchpad_mac mac), .sleep 10, .read8],
      if success = 0x00 then .error .eacces
      else if success = 0xff then .error .eperm
      else if success ≠ 0xAA ∧ success ≠ 0x55 then .error .eio
      else .ok ())
  else ([.resetSelect], .error .eio)

/-- The device responses consumed by one `w1_ds2432_write_secret`
call: the outcome of each reset-select and the bytes the device sends
at each read. -/
structure WriteSecretResp where
  resetOk : Bool
  wsResetOk : Bool
  rsResetOk : Bool
  ta1 : Nat
  ta2 : Nat
  es : Nat
  spData : List Nat
  lfsResetOk : Bool
  lfsStatus : Nat

/-- `w1_ds2432_write_secret`: reset-select, write the candidate secret
to the scratchpad at `W1_DS2432_SECRET_ADDR` (0x80), read the
scratchpad back, fail with `-EIO` unless the echoed address is 0x80
and bit 5 of ES is clear, then issue LOAD_FIRST_SECRET and reset the
bus. -/
def w1_ds2432_write_secret (r : WriteSecretResp) (secret : List Nat) :
    List BusOp × Except DsErr Unit :=
  if r.resetOk = false then ([.resetSelect], .error .eio)
  else
    let s1 := w1_ds2432_write_scratchpad r.wsResetOk 0x80 secret
    match s1.2 with
    | .error e => (.resetSelect :: s1.1, .error e)
    | .ok _ =>
      let s2 := w1_ds2432_read_scratchpad r.rsResetOk r.ta1 r.ta2 r.es r.spData
      match s2.2 with
      | .error e => (.resetSelect :: (s1.1 ++ s2.1), .error e)
      | .ok (address, es, _) =>
        if address ≠ 0x80 then (.resetSelect :: (s1.1 ++ s2.1), .error .eio)
        else if (es >>> 5) &&& 1 ≠ 0 then
          (.resetSelect :: (s1.1 ++ s2.1), .error .eio)
        else
          let s3 := w1_ds2432_load_first_secret r.lfsResetOk address es r.lfsStatus
          match s3.2 with
          | .error e => (.resetSelect :: (s1.1 ++ s2.1 ++ s3.1), .error e)
          | .ok _ =>
            (.resetSelect :: (s1.1 ++ s2.1 ++ s3.1 ++ [.resetBus]), .ok ())

/-- The device responses consumed by one `eeprom_write_block` call. -/
structure BlockResp where
  rmResetOk : Bool
  pageData : List Nat
  wsResetOk : Bool
  rsResetOk : Bool
  ta1 : Nat
  ta2 : Nat
  es : Nat
  spData : List Nat
  csResetOk : Bool
  disposition : Nat

/-- `eeprom_write_block`: read the 32-byte page containing `address`
(from `(address / 32) * 32`), write the 8 data bytes to the
scratchpad, read the scratchpad back, fail with `-EIO` unless the
echoed address matches, bit 5 of ES is clear and the echoed data
equals the data written, then compute the MAC and issue
COPY_SCRATCHPAD. -/
def eeprom_write_block (secret serial : List Nat) (r : BlockResp)
    (address : Nat) (data : List Nat) : List BusOp × Except DsErr Unit :=
  let s1 := w1_ds2432_read_memory r.rmResetOk (address / 32 * 32) 32 r.pageData
  match s1.2 with
  | .error e => (s1.1, .error e)
  | .ok data_memory_page =>
    let s2 := w1_ds2432_write_scratchpad r.wsResetOk address data
    match s2.2 with
    | .error e => (s1.1 ++ s2.1, .error e)
    | .ok _ =>
      let s3 := w1_ds2432_read_scratchpad r.rsResetOk r.ta1 r.ta2 r.es r.spData
      match s3.2 with
      | .error e => (s1.1 ++ s2.1 ++ s3.1, .error e)
      | .ok (sp_address, es, scratchpad) =>
        if sp_address ≠ address then (s1.1 ++ s2.1 ++ s3.1, .error .eio)
        else if (es >>> 5) &&& 1 ≠ 0 then (s1.1 ++ s2.1 ++ s3.1, .error .eio)
        else if scratchpad ≠ data.take 8 then
          (s1.1 ++ s2.1 ++ s3.1, .error .eio)
        else
          let mac := generate_mac secret scratchpad address data_memory_page serial
          let s4 := w1_ds2432_copy_scratchpad r.csResetOk sp_address es mac
            r.disposition
          (s1.1 ++ s2.1 ++ s3.1 ++ s4.1, s4.2)

/-- The `while (address < count)` loop of `eeprom_write`: one
`eeprom_write_block` call per 8-byte block starting at address 0,
aborting at the first failure.  Returns the ghost trace, the list of
addresses passed to `eeprom_write_block`, and the loop's outcome.
The C loop counter is a `u8`; since the sysfs layer caps `count` at
the 128-byte attribute size, the counter never wraps and plain `Nat`
increments are exact. -/
def eeprom_write_loop (secret serial : List Nat) (resp : Nat → BlockResp)
    (buf : List Nat) (count address : Nat) :
    List BusOp × List Nat × Except DsErr Unit :=
  if h : address < count then
    let s := eeprom_write_block secret serial (resp (address / 8)) address
      ((buf.drop address).take 8)
    match s.2 with
    | .error e => (s.1, [address], .error e)
    | .ok _ =>
      let rest := eeprom_write_loop secret serial resp buf count (address + 8)
      (s.1 ++ rest.1, address :: rest.2.1, rest.2.2)
  else ([], [], .ok ())
termination_by count - address
decreasing_by omega

/-- `eeprom_write`: reset-select (may fail with `-EIO`), then write
8-byte blocks while `address < count`, starting at address 0 — the
requested file offset `off` is not consulted.  The first failing block
makes the whole call return that block's error; otherwise the original
`count` is returned. -/
def eeprom_write (secret serial : List Nat) (resetOk : Bool)
    (resp : Nat → BlockResp) (off : Nat) (buf : List Nat) (count : Nat) :
    List BusOp × List Nat × Except DsErr Nat :=
  if resetOk = false then ([.resetSelect], [], .error .eio)
  else
    let s := eeprom_write_loop secret serial resp buf count 0
    (.resetSelect :: s.1, s.2.1,
      match s.2.2 with
      | .error e => .error e
      | .ok _ => .ok count)

/-- `w1_b3_fix_count`: clamp a read to the file size. -/
def w1_b3_fix_count (off count size : Nat) : Nat :=
  if off > size then 0
  else if off + count > size then size - off
  else count

/-- `eeprom_read`: clamp `count` to the 128-byte data region and
return 0 immediately (no bus traffic) when nothing remains; otherwise
reset-select (may fail with `-EIO`) and issue READ_MEMORY at `off`
(whose own result is not checked), returning the clamped count. -/
def eeprom_read (resetOk1 resetOk2 : Bool) (devBytes : List Nat)
    (off count : Nat) : List BusOp × Except DsErr Nat :=
  let c := w1_b3_fix_count off count 0x80
  if c = 0 then ([], .ok 0)
  else if resetOk1 = false then ([.resetSelect], .error .eio)
  else
    let s := w1_ds2432_read_memory resetOk2 off c devBytes
    (.resetSelect :: s.1, .ok c)

/-- `secret_sync_write`: reset-select (may fail with `-EIO`), then
call `w1_ds2432_write_secret` with the host-side secret shadow — its
result is discarded, exactly as in the source — and return `count`. -/
def secret_sync_write (resetOk : Bool) (r : WriteSecretResp)
    (secret : List Nat) (count : Nat) : List BusOp × Except DsErr Nat :=
  if resetOk = false then ([.resetSelect], .error .eio)
  else
    let s := w1_ds2432_write_secret r secret
    (.resetSelect :: s.1, .ok count)

lemma getD_take_of_lt {l : List Nat} {n i : Nat} (d : Nat) (h : i < n) :
    (l.take n).getD i d = l.getD i d := by
  simp [List.getD_eq_getElem?_getD, List.getElem?_take, h]

lemma getD_drop_add {l : List Nat} (n i : Nat) (d : Nat) :
    (l.drop n).getD i d = l.getD (n + i) d := by
  simp [List.getD_eq_getElem?_getD, List.getElem?_drop]

lemma drop_append_ge (l1 l2 : List Nat) (n : Nat) (h : l1.length ≤ n) :
    (l1 ++ l2).drop n = l2.drop (n - l1.length) := by
  have hn : n = l1.length + (n - l1.length) := by omega
  rw [hn, List.drop_append, Nat.add_sub_cancel_left]

/-- C2 counterexample: the fixed padding that `generate_mac` places at
bytes 52-63 of the Authentication Message is twelve bytes long, not
fifteen as the claim states. -/
theorem generate_mac_message_padding_not_fifteen_bytes :
    ((generate_mac_message [1, 2, 3, 4, 5, 6, 7, 8] [1, 1, 1, 1, 1, 1, 1, 1] 0
        (List.replicate 28 0) [0x33, 0, 0, 0, 0, 0, 0, 0]).drop 52).length = 12
    ∧ ¬ ((generate_mac_message [1, 2, 3, 4, 5, 6, 7, 8] [1, 1, 1, 1, 1, 1, 1, 1] 0
        (List.replicate 28 0) [0x33, 0, 0, 0, 0, 0, 0, 0]).drop 52).length = 15 := by
  decide

/-- C2 (amended): the 64-byte authentication message has bytes 0-3
from `secret[0..4)`, bytes 4-31 the 28 bytes of page data, bytes 32-39
the scratchpad's 8 data bytes, byte 40 `(address & 0xF0) >> 5`, bytes
41-47 the first seven bytes of the device serial number, bytes 48-51
`secret[4..8)`, and bytes 52-63 a fixed twelve-byte padding sequence
that is constant across all computations. -/
theorem generate_mac_message_layout
    (secret scratchpad : List Nat) (address : Nat) (pd sn : List Nat)
    (hsec : secret.length = 8) (hsp : scratchpad.length = 8)
    (hpd : 28 ≤ pd.length) (hsn : sn.length = 8) :
    (generate_mac_message secret scratchpad address pd sn).length = 64
    ∧ (∀ i, i < 4 →
        (generate_mac_message secret scratchpad address pd sn).getD i 0
          = secret.getD i 0)
    ∧ (∀ i, 4 ≤ i → i < 32 →
        (generate_mac_message secret scratchpad address pd sn).getD i 0
          = pd.getD (i - 4) 0)
    ∧ (∀ i, 32 ≤ i → i < 40 →
        (generate_mac_message secret scratchpad address pd sn).getD i 0
          = scratchpad.getD (i - 32) 0)
    ∧ (generate_mac_message secret scratchpad address pd sn).getD 40 0
        = (address &&& 0xf0) >>> 5
    ∧ (∀ i, 41 ≤ i → i < 48 →
        (generate_mac_message secret scratchpad address pd sn).getD i 0
          = sn.getD (i - 41) 0)
    ∧ (∀ i, 48 ≤ i → i < 52 →
        (generate_mac_message secret scratchpad address pd sn).getD i 0
          = secret.getD (i - 44) 0)
    ∧ (generate_mac_message secret scratchpad address pd sn).drop 52
        = [0xff, 0xff, 0xff, 0x80, 0x00, 0x00, 0x00, 0x00, 0x00, 0x00, 0x01, 0xb8]
    ∧ ((generate_mac_message secret scratchpad address pd sn).drop 52).length = 12 := by
  have l1 : (secret.take 4).length = 4 := by rw [List.length_take]; omega
  have l2 : (pd.take 28).length = 28 := by rw [List.length_take]; omega
  have l3 : (scratchpad.take 8).length = 8 := by rw [List.length_take]; omega
  have l4 : ([(address &&& 0xf0) >>> 5] : List Nat).length = 1 := rfl
  have l5 : (sn.take 7).length = 7 := by rw [List.length_take]; omega
  have l6 : ((secret.drop 4).take 4).length = 4 := by
    rw [List.length_take, List.length_drop]; omega
  unfold generate_mac_message
  simp only [List.append_assoc]
  have hdrop : (secret.take 4 ++ (pd.take 28 ++ (scratchpad.take 8 ++
      ([(address &&& 0xf0) >>> 5] ++ (sn.take 7 ++ ((secret.drop 4).take 4 ++
      [0xff, 0xff, 0xff, 0x80, 0x00, 0x00, 0x00, 0x00, 0x00, 0x00, 0x01, 0xb8])))))).drop 52
      = [0xff, 0xff, 0xff, 0x80, 0x00, 0x00, 0x00, 0x00, 0x00, 0x00, 0x01, 0xb8] := by
    rw [drop_append_ge _ _ _ (by omega), l1]
    rw [drop_append_ge _ _ _ (by omega), l2]
    rw [drop_append_ge _ _ _ (by omega), l3]
    rw [drop_append_ge _ _ _ (by omega), l4]
    rw [drop_append_ge _ _ _ (by omega), l5]
    rw [drop_append_ge _ _ _ (by omega), l6]
    rfl
  refine ⟨?_, ?_, ?_, ?_, ?_, ?_, ?_, ?_, ?_⟩
  · simp only [List.length_append, l1, l2, l3, l5, l6, List.length_cons,
      List.length_nil]
  · intro i hi
    rw [List.getD_append _ _ _ _ (by omega : i < (secret.take 4).length)]
    exact getD_take_of_lt 0 hi
  · intro i h4 h32
    rw [List.getD_append_right _ _ _ _ (by omega : (secret.take 4).length ≤ i), l1]
    rw [List.getD_append _ _ _ _ (by omega : i - 4 < (pd.take 28).length)]
    exact getD_take_of_lt 0 (by omega)
  · intro i h32 h40
    rw [List.getD_append_right _ _ _ _ (by omega : (secret.take 4).length ≤ i), l1]
    rw [List.getD_append_right _ _ _ _ (by omega : (pd.take 28).length ≤ i - 4), l2]
    rw [List.getD_append _ _ _ _ (by omega : i - 4 - 28 < (scratchpad.take 8).length)]
    have h : i - 4 - 28 = i - 32 := by omega
    rw [h]
    exact getD_take_of_lt 0 (by omega)
  · rw [List.getD_append_right _ _ _ _ (by omega : (secret.take 4).length ≤ 40), l1]
    rw [List.getD_append_right _ _ _ _ (by omega : (pd.take 28).length ≤ 40 - 4), l2]
    rw [List.getD_append_right _ _ _ _
      (by omega : (scratchpad.take 8).length ≤ 40 - 4 - 28), l3]
    rfl
  · intro i h41 h48
    rw [List.getD_append_right _ _ _ _ (by omega : (secret.take 4).length ≤ i), l1]
    rw [List.getD_append_right _ _ _ _ (by omega : (pd.take 28).length ≤ i - 4), l2]
    rw [List.getD_append_right _ _ _ _
      (by omega : (scratchpad.take 8).length ≤ i - 4 - 28), l3]
    rw [List.getD_append_right _ _ _ _
      (by omega : ([(address &&& 0xf0) >>> 5] : List Nat).length ≤ i - 4 - 28 - 8), l4]
    rw [List.getD_append _ _ _ _ (by omega : i - 4 - 28 - 8 - 1 < (sn.take 7).length)]
    have h : i - 4 - 28 - 8 - 1 = i - 41 := by omega
    rw [h]
    exact getD_take_of_lt 0 (by omega)
  · intro i h48 h52
    rw [List.getD_append_right _ _ _ _ (by omega : (secret.take 4).length ≤ i), l1]
    rw [List.getD_append_right _ _ _ _ (by omega : (pd.take 28).length ≤ i - 4), l2]
    rw [List.getD_append_right _ _ _ _
      (by omega : (scratchpad.take 8).length ≤ i - 4 - 28), l3]
    rw [List.getD_append_right _ _ _ _
      (by omega : ([(address &&& 0xf0) >>> 5] : List Nat).length ≤ i - 4 - 28 - 8), l4]
    rw [List.getD_append_right _ _ _ _
      (by omega : (sn.take 7).length ≤ i - 4 - 28 - 8 - 1), l5]
    rw [List.getD_append _ _ _ _
      (by omega : i - 4 - 28 - 8 - 1 - 7 < ((secret.drop 4).take 4).length)]
    rw [getD_take_of_lt 0 (by omega : i - 4 - 28 - 8 - 1 - 7 < 4), getD_drop_add]
    have h : 4 + (i - 4 - 28 - 8 - 1 - 7) = i - 44 := by omega
    rw [h]
  · exact hdrop
  · rw [hdrop]; rfl

/-- C2 witness: the layout theorem evaluated at a concrete message. -/
theorem generate_mac_message_layout_witness :
    (generate_mac_message [1, 2, 3, 4, 5, 6, 7, 8] [11, 12, 13, 14, 15, 16, 17, 18]
        0x46 (List.replicate 28 9) [0x33, 1, 2, 3, 4, 5, 6, 7]).length = 64
    ∧ (generate_mac_message [1, 2, 3, 4, 5, 6, 7, 8] [11, 12, 13, 14, 15, 16, 17, 18]
        0x46 (List.replicate 28 9) [0x33, 1, 2, 3, 4, 5, 6, 7]).getD 40 0
      = ((0x46 : Nat) &&& 0xf0) >>> 5
    ∧ (generate_mac_message [1, 2, 3, 4, 5, 6, 7, 8] [11, 12, 13, 14, 15, 16, 17, 18]
        0x46 (List.replicate 28 9) [0x33, 1, 2, 3, 4, 5, 6, 7]).getD 5 0
      = (List.replicate 28 9).getD 1 0 := by
  have h := generate_mac_message_layout [1, 2, 3, 4, 5, 6, 7, 8]
    [11, 12, 13, 14, 15, 16, 17, 18] 0x46 (List.replicate 28 9)
    [0x33, 1, 2, 3, 4, 5, 6, 7] (by decide) (by decide) (by decide) (by decide)
  exact ⟨h.1, h.2.2.2.2.1, h.2.2.1 5 (by decide) (by decide)⟩

set_option maxRecDepth 40000 in
/-- C8 counterexample: two input tuples that differ in exactly one
input byte but produce identical MACs.  Byte 7 of the serial number is
never copied into the authentication message, and the high byte of the
16-bit address does not survive the `(address & 0xF0) >> 5`
computation, so single-byte changes there leave all five output words
unchanged. -/
theorem generate_mac_not_sensitive_to_every_input_byte :
    (([0, 0, 0, 0, 0, 0, 0, 0] : List Nat).take 7
        = ([0, 0, 0, 0, 0, 0, 0, 1] : List Nat).take 7)
    ∧ (([0, 0, 0, 0, 0, 0, 0, 0] : List Nat).getD 7 0
        ≠ ([0, 0, 0, 0, 0, 0, 0, 1] : List Nat).getD 7 0)
    ∧ generate_mac [0, 0, 0, 0, 0, 0, 0, 0] [0, 0, 0, 0, 0, 0, 0, 0] 0
        (List.replicate 28 0) [0, 0, 0, 0, 0, 0, 0, 0]
      = generate_mac [0, 0, 0, 0, 0, 0, 0, 0] [0, 0, 0, 0, 0, 0, 0, 0] 0
        (List.replicate 28 0) [0, 0, 0, 0, 0, 0, 0, 1]
    ∧ ((0x0000 : Nat) >>> 8 ≠ (0x0100 : Nat) >>> 8)
    ∧ ((0x0000 : Nat) &&& 0xff = (0x0100 : Nat) &&& 0xff)
    ∧ generate_mac [0, 0, 0, 0, 0, 0, 0, 0] [0, 0, 0, 0, 0, 0, 0, 0] 0x0000
        (List.replicate 28 0) [0, 0, 0, 0, 0, 0, 0, 0]
      = generate_mac [0, 0, 0, 0, 0, 0, 0, 0] [0, 0, 0, 0, 0, 0, 0, 0] 0x0100
        (List.replicate 28 0) [0, 0, 0, 0, 0, 0, 0, 0] := by
  decide

/-- C8 (amended): `generate_mac` is deterministic (a pure function of
its inputs), and rather than depending on every input byte it depends
on the address only through `address & 0xF0`, on the page data only
through its first 28 bytes, and on the serial number only through its
first 7 bytes: equal projections give equal MACs, so a single-byte
change confined to the unused parts leaves the output unchanged. -/
theorem generate_mac_deterministic_with_projection_invariance
    (secret sp pd pd' sn sn' : List Nat) (a a' : Nat)
    (hpd : pd.take 28 = pd'.take 28) (hsn : sn.take 7 = sn'.take 7)
    (ha : a &&& 0xf0 = a' &&& 0xf0) :
    generate_mac secret sp a pd sn = generate_mac secret sp a pd sn
    ∧ generate_mac secret sp a pd sn = generate_mac secret sp a' pd' sn' := by
  constructor
  · rfl
  · unfold generate_mac generate_mac_message
    rw [hpd, hsn, ha]

/-- C8 witness: the invariance theorem evaluated at concrete inputs
whose page data differ only at byte 28. -/
theorem generate_mac_deterministic_with_projection_invariance_witness :
    generate_mac [1, 2, 3, 4, 5, 6, 7, 8] [1, 1, 1, 1, 1, 1, 1, 1] 0x20
        (List.replicate 28 3 ++ [7]) [9, 9, 9, 9, 9, 9, 9, 9]
      = generate_mac [1, 2, 3, 4, 5, 6, 7, 8] [1, 1, 1, 1, 1, 1, 1, 1] 0x20
        (List.replicate 28 3 ++ [8]) [9, 9, 9, 9, 9, 9, 9, 9] :=
  (generate_mac_deterministic_with_projection_invariance
    [1, 2, 3, 4, 5, 6, 7, 8] [1, 1, 1, 1, 1, 1, 1, 1]
    (List.replicate 28 3 ++ [7]) (List.replicate 28 3 ++ [8])
    [9, 9, 9, 9, 9, 9, 9, 9] [9, 9, 9, 9, 9, 9, 9, 9] 0x20 0x20
    (by decide) (by decide) (by decide)).2

/-- C4: `w1_ds2432_copy_scratchpad` classifies the disposition byte
read after transmitting the MAC into exactly four outcomes: 0x00 is
the authentication-rejected error (`-EACCES`), 0xFF the
write-protected error (`-EPERM`), 0xAA and 0x55 success, and every
other value the unknown-disposition error (`-EIO`); the three failure
classes are mutually distinct. -/
theorem copy_scratchpad_disposition_classification
    (address es : Nat) (mac : sha1) (s : Nat) :
    ((s = 0x00 →
       (w1_ds2432_copy_scratchpad true address es mac s).2 = .error .eacces)
    ∧ (s = 0xff →
       (w1_ds2432_copy_scratchpad true address es mac s).2 = .error .eperm)
    ∧ (s = 0xAA ∨ s = 0x55 →
       (w1_ds2432_copy_scratchpad true address es mac s).2 = .ok ())
    ∧ (s ≠ 0x00 → s ≠ 0xff → s ≠ 0xAA → s ≠ 0x55 →
       (w1_ds2432_copy_scratchpad true address es mac s).2 = .error .eio))
    ∧ (DsErr.eacces ≠ DsErr.eperm ∧ DsErr.eacces ≠ DsErr.eio
       ∧ DsErr.eperm ≠ DsErr.eio) := by
  refine ⟨⟨?_, ?_, ?_, ?_⟩, by decide, by decide, by decide⟩
  · intro h; subst h; rfl
  · intro h; subst h; rfl
  · rintro (h | h) <;> subst h <;> rfl
  · intro h0 hff haa h55
    simp only [w1_ds2432_copy_scratchpad, if_pos rfl]
    simp [h0, hff, haa, h55]

/-- C4 witness: the classification evaluated on all four branches. -/
theorem copy_scratchpad_disposition_classification_witness :
    (w1_ds2432_copy_scratchpad true 0 0 sha_init 0x00).2 = .error .eacces
    ∧ (w1_ds2432_copy_scratchpad true 0 0 sha_init 0xff).2 = .error .eperm
    ∧ (w1_ds2432_copy_scratchpad true 0 0 sha_init 0xAA).2 = .ok ()
    ∧ (w1_ds2432_copy_scratchpad true 0 0 sha_init 0x01).2 = .error .eio :=
  ⟨(copy_scratchpad_disposition_classification 0 0 sha_init 0x00).1.1 rfl,
   (copy_scratchpad_disposition_classification 0 0 sha_init 0xff).1.2.1 rfl,
   (copy_scratchpad_disposition_classification 0 0 sha_init 0xAA).1.2.2.1
     (Or.inl rfl),
   (copy_scratchpad_disposition_classification 0 0 sha_init 0x01).1.2.2.2
     (by decide) (by decide) (by decide) (by decide)⟩

/-- C6: the 20-byte wire serialization of the MAC is the words in the
order e, d, c, b, a, each emitted least-significant-byte first: wire
byte `4*k + j` is byte `j` of the `k`-th word of that sequence. -/
theorem copy_scratchpad_mac_serialization (mac : sha1) (k j : Nat)
    (hk : k < 5) (hj : j < 4) :
    (copy_scratchpad_mac mac).length = 20
    ∧ (copy_scratchpad_mac mac).getD (4 * k + j) 0
      = (([mac.e, mac.d, mac.c, mac.b, mac.a].getD k 0) >>> (8 * j)) &&& 0xff := by
  constructor
  · simp [copy_scratchpad_mac, le32loop]
  · interval_cases k <;> interval_cases j <;>
      simp [copy_scratchpad_mac, le32loop, ← Nat.shiftRight_add]

/-- C6 witness: the serialization theorem at a concrete MAC, word 2
byte 3. -/
theorem copy_scratchpad_mac_serialization_witness :
    (copy_scratchpad_mac ⟨0x11223344, 0x55667788, 0x99AABBCC, 0xDDEEFF00,
        0x01020304⟩).length = 20
    ∧ (copy_scratchpad_mac ⟨0x11223344, 0x55667788, 0x99AABBCC, 0xDDEEFF00,
        0x01020304⟩).getD (4 * 2 + 3) 0
      = ((([(0x01020304 : Nat), 0xDDEEFF00, 0x99AABBCC, 0x55667788,
        0x11223344] : List Nat).getD 2 0) >>> (8 * 3)) &&& 0xff :=
  copy_scratchpad_mac_serialization
    ⟨0x11223344, 0x55667788, 0x99AABBCC, 0xDDEEFF00, 0x01020304⟩ 2 3
    (by decide) (by decide)

/-- C9: the code at the failing input.  `secret_sync_write` calls
`w1_ds2432_write_secret` but discards its result: with a device whose
write-scratchpad reset-select fails, the inner operation returns
`-EIO` yet the endpoint reports success (`count`), contradicting the
claim that any installSecret failure is reflected in the endpoint's
return value. -/
theorem secret_sync_write_discards_write_secret_failure :
    (w1_ds2432_write_secret ⟨true, false, true, 0, 0, 0, [], true, 0xAA⟩
        [1, 2, 3, 4, 5, 6, 7, 8]).2 = .error .eio
    ∧ (secret_sync_write true ⟨true, false, true, 0, 0, 0, [], true, 0xAA⟩
        [1, 2, 3, 4, 5, 6, 7, 8] 1).2 = .ok 1 := by
  decide

/-- C10 counterexample: at offset 129 the read returns a count of 0,
and 129 + 0 is not at most 128, so the claim's closing clause "the
returned count always satisfies off + count <= 128" fails for offsets
beyond the region even though no bytes are read. -/
theorem eeprom_read_off_beyond_size_bound_violation :
    w1_b3_fix_count 129 1 128 = 0
    ∧ (eeprom_read true true [] 129 1).1 = []
    ∧ (eeprom_read true true [] 129 1).2 = .ok 0
    ∧ ¬ (129 + 0 ≤ 128) := by
  decide

/-- C10 (amended): the eeprom read endpoint never addresses memory
outside the 128-byte region: for off > 128 it returns 0 bytes with no
bus transaction; for off + count > 128 the count is truncated to
128 - off; otherwise count is used; hence whenever off ≤ 128 the
returned count satisfies off + count ≤ 128 (and for off > 128 the
count is 0 and nothing is read). -/
theorem eeprom_read_stays_in_bounds (resetOk1 resetOk2 : Bool)
    (dev : List Nat) (off count : Nat) :
    (off > 128 → w1_b3_fix_count off count 128 = 0
      ∧ (eeprom_read resetOk1 resetOk2 dev off count).1 = []
      ∧ (eeprom_read resetOk1 resetOk2 dev off count).2 = .ok 0)
    ∧ (off ≤ 128 → off + count > 128 →
        w1_b3_fix_count off count 128 = 128 - off)
    ∧ (off + count ≤ 128 → w1_b3_fix_count off count 128 = count)
    ∧ (off ≤ 128 → off + w1_b3_fix_count off count 128 ≤ 128)
    ∧ (∀ n, (eeprom_read resetOk1 resetOk2 dev off count).2 = .ok n →
        n = w1_b3_fix_count off count 128) := by
  refine ⟨?_, ?_, ?_, ?_, ?_⟩
  · intro h
    have hc : w1_b3_fix_count off count 128 = 0 := by
      unfold w1_b3_fix_count; rw [if_pos h]
    refine ⟨hc, ?_, ?_⟩ <;> simp [eeprom_read, w1_b3_fix_count, h]
  · intro h1 h2
    unfold w1_b3_fix_count
    rw [if_neg (by omega), if_pos (by omega)]
  · intro h
    unfold w1_b3_fix_count
    rw [if_neg (by omega), if_neg (by omega)]
  · intro h
    unfold w1_b3_fix_count
    split_ifs <;> omega
  · intro n
    unfold eeprom_read
    by_cases hc : w1_b3_fix_count off count 0x80 = 0
    · simp only [hc, if_pos rfl]
      intro h
      cases h
      rfl
    · simp only [hc, if_neg hc]
      by_cases hr : resetOk1 = false
      · simp [hr]
      · simp only [hr, if_neg]
        intro h
        cases h
        rfl

/-- C10 witness: the bounds theorem at off 120, count 16: the count is
clamped to 8 and 120 + 8 stays within the region. -/
theorem eeprom_read_stays_in_bounds_witness :
    w1_b3_fix_count 120 16 128 = 128 - 120
    ∧ 120 + w1_b3_fix_count 120 16 128 ≤ 128 :=
  ⟨(eeprom_read_stays_in_bounds true true [] 120 16).2.1 (by decide) (by decide),
   (eeprom_read_stays_in_bounds true true [] 120 16).2.2.2.1 (by decide)⟩

/-- C5: `eeprom_write_block` first reads 32 bytes starting at the page
base `(address / 32) * 32` (of which only the first 28 feed the MAC:
the whole call is invariant under changes to the page bytes past 28);
after staging it reads the scratchpad back and fails with the
protocol-integrity error `-EIO` — issuing no COPY_SCRATCHPAD command —
unless the echoed address equals the requested address, bit 5 of ES is
clear, and the echoed data equals the data written; only when all
three checks pass does it compute the MAC and issue COPY_SCRATCHPAD
with it. -/
theorem eeprom_write_block_protocol (secret serial : List Nat) (r : BlockResp)
    (address : Nat) (data : List Nat) :
    (r.rmResetOk = true →
      (eeprom_write_block secret serial r address data).1.take 3
        = [.resetSelect,
           .write [0xF0, (address / 32 * 32) &&& 0xff, ((address / 32 * 32) >>> 8) % 256],
           .read 32])
    ∧ (∀ pd', pd'.take 28 = r.pageData.take 28 →
        eeprom_write_block secret serial { r with pageData := pd' } address data
          = eeprom_write_block secret serial r address data)
    ∧ (r.rmResetOk = true → r.wsResetOk = true → r.rsResetOk = true →
        ((((r.ta2 <<< 8) % 2 ^ 16) ||| r.ta1) ≠ address
            ∨ (r.es >>> 5) &&& 1 ≠ 0 ∨ r.spData.take 8 ≠ data.take 8 →
          (eeprom_write_block secret serial r address data).2 = .error .eio
          ∧ ∀ l, BusOp.write (0x55 :: l) ∉ (eeprom_write_block secret serial r address data).1))
    ∧ (r.rmResetOk = true → r.wsResetOk = true → r.rsResetOk = true →
        (((r.ta2 <<< 8) % 2 ^ 16) ||| r.ta1) = address →
        (r.es >>> 5) &&& 1 = 0 → r.spData.take 8 = data.take 8 →
          (eeprom_write_block secret serial r address data).2
            = (w1_ds2432_copy_scratchpad r.csResetOk address r.es
                (generate_mac secret (r.spData.take 8) address r.pageData serial)
                r.disposition).2
          ∧ (r.csResetOk = true →
              BusOp.write (copy_scratchpad_mac
                  (generate_mac secret (r.spData.take 8) address r.pageData serial))
                ∈ (eeprom_write_block secret serial r address data).1)) := by
  refine ⟨?_, ?_, ?_, ?_⟩
  · intro hrm
    obtain ⟨rm, pd, ws, rs, ta1, ta2, es, sp, cs, disp⟩ := r
    subst hrm
    cases ws <;> cases rs <;> cases cs <;>
      simp only [eeprom_write_block, w1_ds2432_read_memory,
        w1_ds2432_write_scratchpad, w1_ds2432_read_scratchpad,
        w1_ds2432_copy_scratchpad, if_true, if_false, Bool.false_eq_true] <;>
      (try split_ifs) <;> simp
  · intro pd' hpd
    obtain ⟨rm, pd, ws, rs, ta1, ta2, es, sp, cs, disp⟩ := r
    simp only at hpd
    have hmac : generate_mac secret (sp.take 8) address pd' serial
        = generate_mac secret (sp.take 8) address pd serial := by
      unfold generate_mac generate_mac_message
      rw [hpd]
    cases rm <;> cases ws <;> cases rs <;>
      simp only [eeprom_write_block, w1_ds2432_read_memory,
        w1_ds2432_write_scratchpad, w1_ds2432_read_scratchpad,
        Bool.false_eq_true, eq_self_iff_true, if_true, if_false, hmac]
  · intro hrm hws hrs hbad
    obtain ⟨rm, pd, ws, rs, ta1, ta2, es, sp, cs, disp⟩ := r
    simp only at hrm hws hrs hbad ⊢
    subst hrm; subst hws; subst hrs
    simp only [eeprom_write_block, w1_ds2432_read_memory,
      w1_ds2432_write_scratchpad, w1_ds2432_read_scratchpad,
      eq_self_iff_true, if_true]
    by_cases h1 : (((ta2 <<< 8) % 2 ^ 16) ||| ta1) ≠ address
    · rw [if_pos h1]
      exact ⟨rfl, fun l => by simp⟩
    · rw [if_neg h1]
      by_cases h2 : (es >>> 5) &&& 1 ≠ 0
      · rw [if_pos h2]
        exact ⟨rfl, fun l => by simp⟩
      · rw [if_neg h2]
        have h3 : sp.take 8 ≠ data.take 8 := by tauto
        rw [if_pos h3]
        exact ⟨rfl, fun l => by simp⟩
  · intro hrm hws hrs h1 h2 h3
    obtain ⟨rm, pd, ws, rs, ta1, ta2, es, sp, cs, disp⟩ := r
    simp only at hrm hws hrs h1 h2 h3 ⊢
    subst hrm; subst hws; subst hrs
    simp only [eeprom_write_block, w1_ds2432_read_memory,
      w1_ds2432_write_scratchpad, w1_ds2432_read_scratchpad,
      eq_self_iff_true, if_true]
    rw [if_neg (by simpa using h1), if_neg (by simpa using h2),
      if_neg (by simpa using h3), h1, h3]
    constructor
    · rfl
    · intro hcs
      subst hcs
      simp [w1_ds2432_copy_scratchpad]

/-- C5 witness: the protocol theorem on a concrete all-checks-pass
run at address 0x10. -/
theorem eeprom_write_block_protocol_witness :
    (eeprom_write_block [1, 1, 1, 1, 1, 1, 1, 1] [2, 2, 2, 2, 2, 2, 2, 2]
        ⟨true, List.replicate 32 0, true, true, 0x10, 0, 0,
          [1, 2, 3, 4, 5, 6, 7, 8], true, 0xAA⟩
        0x10 [1, 2, 3, 4, 5, 6, 7, 8]).2
      = (w1_ds2432_copy_scratchpad true 0x10 0
          (generate_mac [1, 1, 1, 1, 1, 1, 1, 1]
            (([1, 2, 3, 4, 5, 6, 7, 8] : List Nat).take 8) 0x10
            (List.replicate 32 0) [2, 2, 2, 2, 2, 2, 2, 2]) 0xAA).2 :=
  ((eeprom_write_block_protocol [1, 1, 1, 1, 1, 1, 1, 1] [2, 2, 2, 2, 2, 2, 2, 2]
    ⟨true, List.replicate 32 0, true, true, 0x10, 0, 0,
      [1, 2, 3, 4, 5, 6, 7, 8], true, 0xAA⟩
    0x10 [1, 2, 3, 4, 5, 6, 7, 8]).2.2.2 rfl rfl rfl (by decide) (by decide)
    rfl).1

/-- C7: `w1_ds2432_write_secret` stages the candidate secret via
WRITE_SCRATCHPAD at the fixed secret-region address 0x80, reads the
scratchpad back and fails (without issuing LOAD_FIRST_SECRET) unless
the echoed address equals 0x80 and bit 5 of ES is clear, and then
issues LOAD_FIRST_SECRET, which succeeds if and only if the status
byte read after the wait is 0xAA or 0x55. -/
theorem write_secret_protocol (r : WriteSecretResp) (secret : List Nat) :
    (r.resetOk = true → r.wsResetOk = true →
      BusOp.write ([0x0F, 0x80, 0x00] ++ secret.take 8)
        ∈ (w1_ds2432_write_secret r secret).1)
    ∧ (r.resetOk = true → r.wsResetOk = true → r.rsResetOk = true →
        ((((r.ta2 <<< 8) % 2 ^ 16) ||| r.ta1) ≠ 0x80 ∨ (r.es >>> 5) &&& 1 ≠ 0 →
          (w1_ds2432_write_secret r secret).2 = .error .eio
          ∧ ∀ l, BusOp.write (0x5A :: l) ∉ (w1_ds2432_write_secret r secret).1))
    ∧ (r.resetOk = true → r.wsResetOk = true → r.rsResetOk = true →
        (((r.ta2 <<< 8) % 2 ^ 16) ||| r.ta1) = 0x80 → (r.es >>> 5) &&& 1 = 0 →
        ((w1_ds2432_write_secret r secret).2
            = (w1_ds2432_load_first_secret r.lfsResetOk 0x80 r.es r.lfsStatus).2
         ∧ ((w1_ds2432_write_secret r secret).2 = .ok ()
            ↔ r.lfsResetOk = true ∧ (r.lfsStatus = 0xAA ∨ r.lfsStatus = 0x55)))) := by
  obtain ⟨ro, ws, rs, ta1, ta2, es, sp, lfs, st⟩ := r
  refine ⟨?_, ?_, ?_⟩
  · intro hro hws
    simp only at hro hws
    subst hro; subst hws
    cases rs <;>
      simp only [w1_ds2432_write_secret, w1_ds2432_write_scratchpad,
        w1_ds2432_read_scratchpad, w1_ds2432_load_first_secret,
        Bool.false_eq_true, Bool.true_eq_false, eq_self_iff_true,
        if_true, if_false] <;>
      (try split_ifs) <;> simp_all <;> decide
  · intro hro hws hrs hbad
    simp only at hro hws hrs hbad ⊢
    subst hro; subst hws; subst hrs
    simp only [w1_ds2432_write_secret, w1_ds2432_write_scratchpad,
      w1_ds2432_read_scratchpad, Bool.true_eq_false, eq_self_iff_true,
      if_true, if_false]
    by_cases h1 : (((ta2 <<< 8) % 2 ^ 16) ||| ta1) ≠ 0x80
    · rw [if_pos h1]
      exact ⟨rfl, fun l => by simp⟩
    · rw [if_neg h1]
      have h2 : (es >>> 5) &&& 1 ≠ 0 := by tauto
      rw [if_pos h2]
      exact ⟨rfl, fun l => by simp⟩
  · intro hro hws hrs h1 h2
    simp only at hro hws hrs h1 h2 ⊢
    subst hro; subst hws; subst hrs
    simp only [w1_ds2432_write_secret, w1_ds2432_write_scratchpad,
      w1_ds2432_read_scratchpad, Bool.true_eq_false, eq_self_iff_true,
      if_true, if_false]
    rw [if_neg (show ¬(((ta2 <<< 8) % 2 ^ 16) ||| ta1 ≠ 0x80) from by simpa using h1)]
    rw [if_neg (show ¬((es >>> 5) &&& 1 ≠ 0) from by simpa using h2)]
    rw [h1]
    cases lfs <;>
      simp only [w1_ds2432_load_first_secret, Bool.false_eq_true,
        Bool.true_eq_false, eq_self_iff_true, if_true, if_false]
    · exact ⟨trivial, by simp⟩
    · by_cases hst : st ≠ 0xAA ∧ st ≠ 0x55
      · rw [if_pos hst]
        exact ⟨rfl, fun h => Except.noConfusion h, fun h => absurd h.2 (by tauto)⟩
      · rw [if_neg hst]
        exact ⟨rfl, fun _ => ⟨trivial, by tauto⟩, fun _ => rfl⟩

/-- C7 witness: the secret-install theorem on a concrete run whose
load-first-secret status byte is 0x55. -/
theorem write_secret_protocol_witness :
    (w1_ds2432_write_secret
        ⟨true, true, true, 0x80, 0, 0, [5, 5, 5, 5, 5, 5, 5, 5], true, 0x55⟩
        [9, 8, 7, 6, 5, 4, 3, 2]).2
      = (w1_ds2432_load_first_secret true 0x80 0 0x55).2
    ∧ ((w1_ds2432_write_secret
        ⟨true, true, true, 0x80, 0, 0, [5, 5, 5, 5, 5, 5, 5, 5], true, 0x55⟩
        [9, 8, 7, 6, 5, 4, 3, 2]).2 = .ok ()
      ↔ true = true ∧ ((0x55 : Nat) = 0xAA ∨ (0x55 : Nat) = 0x55)) :=
  (write_secret_protocol
    ⟨true, true, true, 0x80, 0, 0, [5, 5, 5, 5, 5, 5, 5, 5], true, 0x55⟩
    [9, 8, 7, 6, 5, 4, 3, 2]).2.2 rfl rfl rfl (by decide) (by decide)

/-- The outcome of the `eeprom_write_block` call the write loop makes
at address `a`: the oracle for block `a / 8` and the 8 bytes of the
caller's buffer starting at `a`. -/
def eeprom_write_block_at (secret serial : List Nat) (resp : Nat → BlockResp)
    (buf : List Nat) (a : Nat) : Except DsErr Unit :=
  (eeprom_write_block secret serial (resp (a / 8)) a ((buf.drop a).take 8)).2

lemma eeprom_write_loop_stop (secret serial : List Nat) (resp : Nat → BlockResp)
    (buf : List Nat) (count a : Nat) (h : ¬ a < count) :
    eeprom_write_loop secret serial resp buf count a = ([], [], .ok ()) := by
  unfold eeprom_write_loop
  simp [h]

lemma eeprom_write_loop_step (secret serial : List Nat) (resp : Nat → BlockResp)
    (buf : List Nat) (count a : Nat) (h : a < count) :
    eeprom_write_loop secret serial resp buf count a =
      match (eeprom_write_block secret serial (resp (a / 8)) a
          ((buf.drop a).take 8)).2 with
      | .error e => ((eeprom_write_block secret serial (resp (a / 8)) a
          ((buf.drop a).take 8)).1, [a], .error e)
      | .ok _ =>
        ((eeprom_write_block secret serial (resp (a / 8)) a
            ((buf.drop a).take 8)).1
          ++ (eeprom_write_loop secret serial resp buf count (a + 8)).1,
         a :: (eeprom_write_loop secret serial resp buf count (a + 8)).2.1,
         (eeprom_write_loop secret serial resp buf count (a + 8)).2.2) := by
  rw [eeprom_write_loop]
  simp [h]

lemma eeprom_write_loop_spec (secret serial : List Nat) (resp : Nat → BlockResp)
    (buf : List Nat) (count : Nat) :
    ∀ n a, count - a = n →
    ((eeprom_write_loop secret serial resp buf count a).2.1
        = (List.range (eeprom_write_loop secret serial resp buf count a).2.1.length).map
            (fun i => a + 8 * i))
    ∧ (∀ e, (eeprom_write_loop secret serial resp buf count a).2.2 = .error e →
        ∃ j, (eeprom_write_loop secret serial resp buf count a).2.1.length = j + 1
          ∧ eeprom_write_block_at secret serial resp buf (a + 8 * j) = .error e
          ∧ ∀ i, i < j →
              eeprom_write_block_at secret serial resp buf (a + 8 * i) = .ok ())
    ∧ ((eeprom_write_loop secret serial resp buf count a).2.2 = .ok () →
        (∀ i, a + 8 * i < count →
            eeprom_write_block_at secret serial resp buf (a + 8 * i) = .ok ())
        ∧ (count ≤ a →
            (eeprom_write_loop secret serial resp buf count a).2.1.length = 0)
        ∧ (a < count →
            count ≤ a + 8 * (eeprom_write_loop secret serial resp buf count a).2.1.length
            ∧ a + 8 * ((eeprom_write_loop secret serial resp buf count a).2.1.length - 1)
              < count)) := by
  intro n
  induction n using Nat.strong_induction_on with
  | _ n ih =>
    intro a hn
    by_cases hlt : a < count
    · rw [eeprom_write_loop_step secret serial resp buf count a hlt]
      cases hs : (eeprom_write_block secret serial (resp (a / 8)) a
          ((buf.drop a).take 8)).2 with
      | error e0 =>
        refine ⟨?_, ?_, ?_⟩
        · simp [List.range_succ]
        · intro e he
          simp only at he
          cases he
          refine ⟨0, by simp, ?_, by omega⟩
          simpa [eeprom_write_block_at] using hs
        · intro hok
          exact Except.noConfusion hok
      | ok u =>
        have ihr := ih (count - (a + 8)) (by omega) (a + 8) rfl
        refine ⟨?_, ?_, ?_⟩
        · simp only [List.length_cons]
          rw [List.range_succ_eq_map, List.map_cons, List.map_map]
          simp only [List.cons.injEq]
          refine ⟨by omega, ?_⟩
          conv_lhs => rw [ihr.1]
          apply List.map_congr_left
          intro i hi
          simp only [Function.comp_apply]
          omega
        · intro e he
          simp only at he
          obtain ⟨j, hj1, hj2, hj3⟩ := ihr.2.1 e he
          refine ⟨j + 1, by simpa using hj1, ?_, ?_⟩
          · have : a + 8 * (j + 1) = a + 8 + 8 * j := by omega
            rw [this]
            exact hj2
          · intro i hi
            cases i with
            | zero =>
              simpa [eeprom_write_block_at] using hs
            | succ i' =>
              have : a + 8 * (i' + 1) = a + 8 + 8 * i' := by omega
              rw [this]
              exact hj3 i' (by omega)
        · intro hok
          simp only at hok
          obtain ⟨hblocks, hzero, hbound⟩ := ihr.2.2 hok
          refine ⟨?_, by omega, ?_⟩
          · intro i hi
            cases i with
            | zero =>
              simpa [eeprom_write_block_at] using hs
            | succ i' =>
              have : a + 8 * (i' + 1) = a + 8 + 8 * i' := by omega
              rw [this]
              exact hblocks i' (by omega)
          · intro _
            simp only [List.length_cons]
            by_cases hlt2 : a + 8 < count
            · obtain ⟨hb1, hb2⟩ := hbound hlt2
              constructor
              · omega
              · have hL : 0 < (eeprom_write_loop secret serial resp buf count (a + 8)).2.1.length := by
                  by_contra hzl
                  push_neg at hzl
                  interval_cases h : (eeprom_write_loop secret serial resp buf count (a + 8)).2.1.length
                  omega
                omega
            · have hz : (eeprom_write_loop secret serial resp buf count (a + 8)).2.1.length = 0 :=
                hzero (by omega)
              rw [hz]
              omega
    · rw [eeprom_write_loop_stop secret serial resp buf count a hlt]
      refine ⟨by simp, ?_, ?_⟩
      · intro e he
        exact Except.noConfusion he
      · intro _
        exact ⟨fun i hi => by omega, fun _ => by simp, fun h => by omega⟩

lemma eeprom_write_true (secret serial : List Nat) (resp : Nat → BlockResp)
    (off : Nat) (buf : List Nat) (count : Nat) :
    eeprom_write secret serial true resp off buf count
      = (.resetSelect :: (eeprom_write_loop secret serial resp buf count 0).1,
         (eeprom_write_loop secret serial resp buf count 0).2.1,
         match (eeprom_write_loop secret serial resp buf count 0).2.2 with
         | .error e => .error e
         | .ok _ => .ok count) := by
  unfold eeprom_write
  simp

/-- C3 (amended): a whole-buffer eeprom write decomposes into
successive 8-byte-aligned `eeprom_write_block` calls advancing by 8 —
but starting at address 0: the requested file offset is ignored
entirely.  The first failing block aborts the remaining sequence and
the operation returns that block's error code, not the partial byte
count; on success the original count is returned and every block in
range was written.  (`count ≤ 128` reflects the sysfs cap at the
128-byte attribute size, under which the source's `u8` loop counter
never wraps.) -/
theorem eeprom_write_decomposition (secret serial : List Nat)
    (resp : Nat → BlockResp) (buf : List Nat) (count : Nat)
    (hcount : count ≤ 128) :
    (∀ off off',
      eeprom_write secret serial true resp off buf count
        = eeprom_write secret serial true resp off' buf count)
    ∧ (eeprom_write secret serial true resp 0 buf count).2.1
        = (List.range
            (eeprom_write secret serial true resp 0 buf count).2.1.length).map
            (fun i => 8 * i)
    ∧ (∀ e, (eeprom_write secret serial true resp 0 buf count).2.2 = .error e →
        ∃ j, (eeprom_write secret serial true resp 0 buf count).2.1.length = j + 1
          ∧ eeprom_write_block_at secret serial resp buf (8 * j) = .error e
          ∧ ∀ i, i < j →
              eeprom_write_block_at secret serial resp buf (8 * i) = .ok ())
    ∧ (∀ m, (eeprom_write secret serial true resp 0 buf count).2.2 = .ok m →
        m = count)
    ∧ ((eeprom_write secret serial true resp 0 buf count).2.2 = .ok count →
        (∀ i, 8 * i < count →
          eeprom_write_block_at secret serial resp buf (8 * i) = .ok ())
        ∧ (eeprom_write secret serial true resp 0 buf count).2.1.length
            = (count + 7) / 8) := by
  have hloop := eeprom_write_loop_spec secret serial resp buf count (count - 0) 0 rfl
  simp only [Nat.zero_add] at hloop
  refine ⟨?_, ?_, ?_, ?_, ?_⟩
  · intro off off'
    rw [eeprom_write_true, eeprom_write_true]
  · rw [eeprom_write_true]
    exact hloop.1
  · intro e he
    rw [eeprom_write_true] at he ⊢
    cases hr : (eeprom_write_loop secret serial resp buf count 0).2.2 with
    | error e' =>
      rw [hr] at he
      simp only at he
      cases he
      exact hloop.2.1 e hr
    | ok u =>
      rw [hr] at he
      exact Except.noConfusion he
  · intro m hm
    rw [eeprom_write_true] at hm
    cases hr : (eeprom_write_loop secret serial resp buf count 0).2.2 with
    | error e' =>
      rw [hr] at hm
      exact Except.noConfusion hm
    | ok u =>
      rw [hr] at hm
      simp only at hm
      cases hm
      rfl
  · intro hok
    have hproj : (eeprom_write secret serial true resp 0 buf count).2.1
        = (eeprom_write_loop secret serial resp buf count 0).2.1 := by
      rw [eeprom_write_true]
    rw [eeprom_write_true] at hok
    rw [hproj]
    cases hr : (eeprom_write_loop secret serial resp buf count 0).2.2 with
    | error e' =>
      rw [hr] at hok
      exact Except.noConfusion hok
    | ok u =>
      obtain ⟨hblocks, hzero, hbound⟩ := hloop.2.2 (by cases u; exact hr)
      refine ⟨hblocks, ?_⟩
      by_cases hc0 : count = 0
      · subst hc0
        rw [hzero (by omega)]
      · obtain ⟨hb1, hb2⟩ := hbound (by omega)
        have hL : 0 < (eeprom_write_loop secret serial resp buf count 0).2.1.length := by
          by_contra hzl
          push_neg at hzl
          omega
        omega

set_option maxRecDepth 100000 in
/-- C3 counterexample: with the requested offset 8 and a device that
accepts everything, the single block call is made at address 0, not at
the requested offset; and with a first block that fails, the operation
returns the error code `-EIO`, not the partial byte count 0. -/
theorem eeprom_write_ignores_offset_and_returns_error_code :
    (eeprom_write [0, 0, 0, 0, 0, 0, 0, 0] [0, 0, 0, 0, 0, 0, 0, 0] true
        (fun _ => ⟨true, List.replicate 32 0, true, true, 0, 0, 0,
          [1, 2, 3, 4, 5, 6, 7, 8], true, 0xAA⟩) 8
        [1, 2, 3, 4, 5, 6, 7, 8, 9, 10, 11, 12, 13, 14, 15, 16] 8).2.1 = [0]
    ∧ (0 : Nat) ≠ 8
    ∧ (eeprom_write [0, 0, 0, 0, 0, 0, 0, 0] [0, 0, 0, 0, 0, 0, 0, 0] true
        (fun _ => ⟨false, [], true, true, 0, 0, 0, [], true, 0xAA⟩) 0
        [1, 2, 3, 4, 5, 6, 7, 8, 9, 10, 11, 12, 13, 14, 15, 16] 8).2.2
        = .error .eio
    ∧ (eeprom_write [0, 0, 0, 0, 0, 0, 0, 0] [0, 0, 0, 0, 0, 0, 0, 0] true
        (fun _ => ⟨false, [], true, true, 0, 0, 0, [], true, 0xAA⟩) 0
        [1, 2, 3, 4, 5, 6, 7, 8, 9, 10, 11, 12, 13, 14, 15, 16] 8).2.2
        ≠ .ok 0 := by
  have hgood : ((fun _ => (⟨true, List.replicate 32 0, true, true, 0, 0, 0,
      [1, 2, 3, 4, 5, 6, 7, 8], true, 0xAA⟩ : BlockResp)) : Nat → BlockResp) 0
      = ⟨true, List.replicate 32 0, true, true, 0, 0, 0,
        [1, 2, 3, 4, 5, 6, 7, 8], true, 0xAA⟩ := rfl
  have hb : (eeprom_write_block [0, 0, 0, 0, 0, 0, 0, 0] [0, 0, 0, 0, 0, 0, 0, 0]
      ⟨true, List.replicate 32 0, true, true, 0, 0, 0,
        [1, 2, 3, 4, 5, 6, 7, 8], true, 0xAA⟩ 0
      ((([1, 2, 3, 4, 5, 6, 7, 8, 9, 10, 11, 12, 13, 14, 15, 16] :
        List Nat).drop 0).take 8)).2 = .ok () := by
    decide
  have hstep := eeprom_write_loop_step [0, 0, 0, 0, 0, 0, 0, 0]
    [0, 0, 0, 0, 0, 0, 0, 0]
    (fun _ => ⟨true, List.replicate 32 0, true, true, 0, 0, 0,
      [1, 2, 3, 4, 5, 6, 7, 8], true, 0xAA⟩)
    [1, 2, 3, 4, 5, 6, 7, 8, 9, 10, 11, 12, 13, 14, 15, 16] 8 0 (by decide)
  rw [show (0 : Nat) / 8 = 0 from rfl, hgood, hb] at hstep
  rw [eeprom_write_loop_stop [0, 0, 0, 0, 0, 0, 0, 0] [0, 0, 0, 0, 0, 0, 0, 0]
    (fun _ => ⟨true, List.replicate 32 0, true, true, 0, 0, 0,
      [1, 2, 3, 4, 5, 6, 7, 8], true, 0xAA⟩)
    [1, 2, 3, 4, 5, 6, 7, 8, 9, 10, 11, 12, 13, 14, 15, 16] 8 8
    (by decide)] at hstep
  have hbadblock : (eeprom_write_block [0, 0, 0, 0, 0, 0, 0, 0]
      [0, 0, 0, 0, 0, 0, 0, 0] ⟨false, [], true, true, 0, 0, 0, [], true, 0xAA⟩ 0
      ((([1, 2, 3, 4, 5, 6, 7, 8, 9, 10, 11, 12, 13, 14, 15, 16] :
        List Nat).drop 0).take 8)).2 = .error .eio := by
    decide
  have hstep2 := eeprom_write_loop_step [0, 0, 0, 0, 0, 0, 0, 0]
    [0, 0, 0, 0, 0, 0, 0, 0]
    (fun _ => ⟨false, [], true, true, 0, 0, 0, [], true, 0xAA⟩)
    [1, 2, 3, 4, 5, 6, 7, 8, 9, 10, 11, 12, 13, 14, 15, 16] 8 0 (by decide)
  rw [show (0 : Nat) / 8 = 0 from rfl, hbadblock] at hstep2
  refine ⟨?_, by decide, ?_, ?_⟩
  · rw [eeprom_write_true, hstep]
  · rw [eeprom_write_true, hstep2]
  · rw [eeprom_write_true, hstep2]
    intro h
    exact Except.noConfusion h
/-- C3 witness: the decomposition theorem applied at two concrete
offsets, showing the offset argument does not affect the result. -/
theorem eeprom_write_decomposition_witness :
    eeprom_write [0, 0, 0, 0, 0, 0, 0, 0] [0, 0, 0, 0, 0, 0, 0, 0] true
        (fun _ => ⟨true, List.replicate 32 0, true, true, 0, 0, 0,
          [1, 2, 3, 4, 5, 6, 7, 8], true, 0xAA⟩) 5
        [1, 2, 3, 4, 5, 6, 7, 8, 9, 10, 11, 12, 13, 14, 15, 16] 16
      = eeprom_write [0, 0, 0, 0, 0, 0, 0, 0] [0, 0, 0, 0, 0, 0, 0, 0] true
        (fun _ => ⟨true, List.replicate 32 0, true, true, 0, 0, 0,
          [1, 2, 3, 4, 5, 6, 7, 8], true, 0xAA⟩) 7
        [1, 2, 3, 4, 5, 6, 7, 8, 9, 10, 11, 12, 13, 14, 15, 16] 16 :=
  (eeprom_write_decomposition [0, 0, 0, 0, 0, 0, 0, 0] [0, 0, 0, 0, 0, 0, 0, 0]
    (fun _ => ⟨true, List.replicate 32 0, true, true, 0, 0, 0,
      [1, 2, 3, 4, 5, 6, 7, 8], true, 0xAA⟩)
    [1, 2, 3, 4, 5, 6, 7, 8, 9, 10, 11, 12, 13, 14, 15, 16] 16
    (by decide)).1 5 7
